import Mathlib

set_option maxRecDepth 4000

/-!
Verification of the watchurl change-detection core.

The repository's core is the function monitorURL in main.go (the poll
scheduler's fetch-compare-persist loop), the content normalizer
extractBody / removeMetaNodes (main.go), and the storage handlers
(shouldSendPush, saveSnapshot, updateLastCheck, deleteURLHandler).

extractBody delegates parsing and serialization to the library
golang.org/x/net/html.  That library is modelled here by an executable
HTML5 tokenizer and tree builder covering the insertion modes and tag
set the development exercises (implied html/head/body elements,
whitespace handling of the initial modes, void elements such as meta,
raw-text elements such as title, the p element, and the after-body
modes).  Paths of the library that no theorem below exercises are
marked in comments.
-/

namespace Watchurl

/-- Whitespace set used by the HTML tokenizer and tree builder
(space, tab, carriage return, newline, form feed). -/
def isWS (c : Char) : Bool :=
  c == ' ' || c == '\t' || c == '\r' || c == '\n' || c == '\x0c'

def isAsciiLetter (c : Char) : Bool :=
  ('a' ≤ c && c ≤ 'z') || ('A' ≤ c && c ≤ 'Z')

/-- ASCII lower-casing, as applied by the tokenizer to tag and attribute names. -/
def lowerChar (c : Char) : Char :=
  if 'A' ≤ c && c ≤ 'Z' then Char.ofNat (c.toNat + 32) else c

def trimLeftWSList : List Char → List Char
  | [] => []
  | c :: cs => if isWS c then trimLeftWSList cs else c :: cs

/-- strings.TrimLeft(s, whitespace) as used by the tree builder. -/
def trimLeftWS (s : String) : String := String.mk (trimLeftWSList s.data)

def wsSplitList : List Char → List Char × List Char
  | [] => ([], [])
  | c :: cs =>
    if isWS c then
      let p := wsSplitList cs
      (c :: p.1, p.2)
    else ([], c :: cs)

/-- Splits a string into its leading-whitespace part and the rest,
matching the in-head and after-head text handling of the tree builder. -/
def wsSplit (s : String) : String × String :=
  let p := wsSplitList s.data
  (String.mk p.1, String.mk p.2)

/-- An attribute of an HTML element (html.Attribute). -/
structure Attr where
  key : String
  val : String
  deriving DecidableEq, Repr

/-- Tokens produced by the html tokenizer. The eof token stands for the
tokenizer's final ErrorToken. -/
inductive Token where
  | text (s : String)
  | startTag (name : String) (attrs : List Attr) (selfClosing : Bool)
  | endTag (name : String)
  | comment (s : String)
  | doctype (s : String)
  | eof
  deriving DecidableEq, Repr

/-- Text run: characters up to the next tag opener. -/
def spanText : List Char → List Char × List Char
  | [] => ([], [])
  | c :: cs =>
    if c == '<' then ([], c :: cs)
    else
      let p := spanText cs
      (c :: p.1, p.2)

/-- Tag name: characters up to whitespace, a slash or the tag close,
lower-cased as by the tokenizer. -/
def spanTagName : List Char → List Char × List Char
  | [] => ([], [])
  | c :: cs =>
    if isWS c || c == '/' || c == '>' then ([], c :: cs)
    else
      let p := spanTagName cs
      (lowerChar c :: p.1, p.2)

def spanAttrKey : List Char → List Char × List Char
  | [] => ([], [])
  | c :: cs =>
    if isWS c || c == '=' || c == '>' || c == '/' then ([], c :: cs)
    else
      let p := spanAttrKey cs
      (lowerChar c :: p.1, p.2)

def spanAttrValUnquoted : List Char → List Char × List Char
  | [] => ([], [])
  | c :: cs =>
    if isWS c || c == '>' then ([], c :: cs)
    else
      let p := spanAttrValUnquoted cs
      (c :: p.1, p.2)

/-- Characters up to (and consuming) the quote character q. -/
def spanUntilChar (q : Char) : List Char → List Char × List Char
  | [] => ([], [])
  | c :: cs =>
    if c == q then ([], cs)
    else
      let p := spanUntilChar q cs
      (c :: p.1, p.2)

/-- Characters of a comment, up to and consuming the closing marker. -/
def takeUntilCommentEnd : List Char → List Char × List Char
  | '-' :: '-' :: '>' :: rest => ([], rest)
  | [] => ([], [])
  | c :: cs =>
    let p := takeUntilCommentEnd cs
    (c :: p.1, p.2)

/-- Attribute list of a tag, up to and consuming the closing angle
bracket; also reports whether the tag was self-closing. -/
def parseAttrs : Nat → List Char → List Attr × Bool × List Char
  | 0, cs => ([], false, cs)
  | fuel + 1, cs =>
    match trimLeftWSList cs with
    | [] => ([], false, [])
    | '>' :: rest => ([], false, rest)
    | '/' :: rest =>
      (match trimLeftWSList rest with
       | '>' :: rest2 => ([], true, rest2)
       | rest2 => parseAttrs fuel rest2)
    | cs' =>
      let kp := spanAttrKey cs'
      match kp.2 with
      | '=' :: '"' :: cs3 =>
        let vp := spanUntilChar '"' cs3
        let r := parseAttrs fuel vp.2
        (⟨String.mk kp.1, String.mk vp.1⟩ :: r.1, r.2.1, r.2.2)
      | '=' :: '\'' :: cs3 =>
        let vp := spanUntilChar '\'' cs3
        let r := parseAttrs fuel vp.2
        (⟨String.mk kp.1, String.mk vp.1⟩ :: r.1, r.2.1, r.2.2)
      | '=' :: cs3 =>
        let vp := spanAttrValUnquoted cs3
        let r := parseAttrs fuel vp.2
        (⟨String.mk kp.1, String.mk vp.1⟩ :: r.1, r.2.1, r.2.2)
      | rest =>
        let r := parseAttrs fuel rest
        (⟨String.mk kp.1, ""⟩ :: r.1, r.2.1, r.2.2)

/-- Does cs start with the given pattern, comparing case-insensitively
(pattern is lower case)? Used to find the closing tag of a raw-text
element. -/
def startsWithLower : List Char → List Char → Bool
  | [], _ => true
  | _ :: _, [] => false
  | p :: ps, c :: cs => p == lowerChar c && startsWithLower ps cs

/-- Raw text content of a raw-text element: everything up to (but not
consuming) its closing tag. -/
def takeRawText (closing : List Char) : List Char → List Char × List Char
  | [] => ([], [])
  | c :: cs =>
    if startsWithLower closing (c :: cs) then ([], c :: cs)
    else
      let p := takeRawText closing cs
      (c :: p.1, p.2)

/-- Elements whose content the tokenizer treats as raw text
(the tokenizer's rawTag set; the parser runs with scripting enabled,
as html.Parse does, so noscript is raw as well). -/
def rawTextTags : List String :=
  ["iframe", "noembed", "noframes", "noscript", "plaintext", "script",
   "style", "textarea", "title", "xmp"]

/-- One tokenizer step after a tag-opening angle bracket followed by a
letter: a start tag, followed by raw text when the element is a
raw-text element. -/
def tokenizeStartTag (next : List Char → List Token) (rest : List Char) :
    List Token :=
  let np := spanTagName rest
  let ap := parseAttrs (np.2.length + 1) np.2
  let name := String.mk np.1
  if name ∈ rawTextTags && !ap.2.1 then
    let rp := takeRawText ('<' :: '/' :: np.1) ap.2.2
    if rp.1.isEmpty then
      Token.startTag name ap.1 ap.2.1 :: next rp.2
    else
      Token.startTag name ap.1 ap.2.1 :: Token.text (String.mk rp.1) :: next rp.2
  else
    Token.startTag name ap.1 ap.2.1 :: next ap.2.2

def tokenizeAux : Nat → List Char → List Token
  | 0, _ => [Token.eof]
  | _, [] => [Token.eof]
  | fuel + 1, c :: rest =>
    if c == '<' then
      match rest with
      | [] => [Token.text "<", Token.eof]
      | '!' :: r2 =>
        (match r2 with
         | '-' :: '-' :: r3 =>
           let p := takeUntilCommentEnd r3
           Token.comment (String.mk p.1) :: tokenizeAux fuel p.2
         | _ =>
           let p := spanUntilChar '>' r2
           Token.doctype (String.mk p.1) :: tokenizeAux fuel p.2)
      | '/' :: r2 =>
        if (match r2 with | c2 :: _ => isAsciiLetter c2 | [] => false) then
          let np := spanTagName r2
          let ap := parseAttrs (np.2.length + 1) np.2
          Token.endTag (String.mk np.1) :: tokenizeAux fuel ap.2.2
        else
          let p := spanUntilChar '>' r2
          Token.comment (String.mk p.1) :: tokenizeAux fuel p.2
      | c2 :: _ =>
        if isAsciiLetter c2 then
          tokenizeStartTag (tokenizeAux fuel) rest
        else
          let p := spanText rest
          Token.text (String.mk ('<' :: p.1)) :: tokenizeAux fuel p.2
    else
      let p := spanText (c :: rest)
      Token.text (String.mk p.1) :: tokenizeAux fuel p.2

/-- The token stream of an input string. -/
def tokenize (s : String) : List Token :=
  tokenizeAux (s.data.length + 1) s.data

/-- html.NodeType, restricted to the kinds the parser produces. -/
inductive NodeType where
  | document
  | element
  | text
  | comment
  | doctype
  deriving DecidableEq, Repr

mutual
/-- html.Node: a node of the parse tree. The Go struct links children
through FirstChild and NextSibling pointers; here a node carries its
ordered child list. -/
inductive Node where
  | mk (type : NodeType) (data : String) (attrs : List Attr) (children : NodeList)

/-- The ordered children of a node. -/
inductive NodeList where
  | nil
  | cons (head : Node) (tail : NodeList)
end

def Node.type : Node → NodeType
  | .mk t _ _ _ => t

def Node.data : Node → String
  | .mk _ d _ _ => d

def Node.attrs : Node → List Attr
  | .mk _ _ a _ => a

def Node.children : Node → NodeList
  | .mk _ _ _ cs => cs

def NodeList.append : NodeList → NodeList → NodeList
  | .nil, l => l
  | .cons h t, l => .cons h (NodeList.append t l)

/-- Appends a text string at the end of a child list, merging with a
trailing text node as the tree builder's addText does. -/
def NodeList.addTextEnd : NodeList → String → NodeList
  | .nil, s => .cons (.mk .text s [] .nil) .nil
  | .cons n .nil, s =>
    match n with
    | .mk .text d a c => .cons (.mk .text (d ++ s) a c) .nil
    | _ => .cons n (.cons (.mk .text s [] .nil) .nil)
  | .cons n t, s => .cons n (NodeList.addTextEnd t s)

/-- An element on the tree builder's stack of open elements, carrying
the children attached to it so far. -/
structure OpenElem where
  name : String
  attrs : List Attr
  children : NodeList

/-- The tree builder's insertion modes (the subset the modelled tag set
can reach). textMode is the text insertion mode used for raw-text
elements such as title. -/
inductive IMode where
  | initialMode
  | beforeHtml
  | beforeHead
  | inHead
  | afterHead
  | inBody
  | textMode
  | afterBody
  | afterAfterBody
  deriving DecidableEq, Repr

/-- Tree builder state: finalized children of the Document, the stack
of open elements (top first), the insertion mode, and the original
insertion mode saved on entering textMode. -/
structure PState where
  docChildren : NodeList
  oe : List OpenElem
  im : IMode
  origIM : IMode

def finalizeElem (e : OpenElem) : Node :=
  .mk .element e.name e.attrs e.children

def PState.pushElem (st : PState) (name : String) (attrs : List Attr) : PState :=
  { st with oe := ⟨name, attrs, .nil⟩ :: st.oe }

/-- Pops the top open element; the finished node becomes the next child
of its parent (or of the Document when the stack empties). In Go the
node is attached to its parent already at insertion time; attaching at
pop time yields the same tree since children are only ever appended. -/
def PState.popElem (st : PState) : PState :=
  match st.oe with
  | [] => st
  | top :: [] =>
    { st with
      oe := []
      docChildren := st.docChildren.append (.cons (finalizeElem top) .nil) }
  | top :: parent :: rest =>
    { st with
      oe := { parent with
              children := parent.children.append (.cons (finalizeElem top) .nil) } :: rest }

/-- Appends a finished node (comment, doctype) as a child of the
current node, or of the Document when no element is open. -/
def PState.addChildNode (st : PState) (n : Node) : PState :=
  match st.oe with
  | [] => { st with docChildren := st.docChildren.append (.cons n .nil) }
  | top :: rest =>
    { st with oe := { top with children := top.children.append (.cons n .nil) } :: rest }

/-- The parser's addText: appends text to the current node, merging
with a trailing text node. -/
def PState.addText (st : PState) (s : String) : PState :=
  match st.oe with
  | [] => { st with docChildren := st.docChildren.addTextEnd s }
  | top :: rest =>
    { st with oe := { top with children := top.children.addTextEnd s } :: rest }

/-- Stop tags of the default scope (parse.go defaultScopeStopTags,
without the foreign-content entries, which the modelled tag set cannot
produce). -/
def defaultScopeStop : List String :=
  ["applet", "caption", "html", "table", "td", "th", "marquee", "object", "template"]

def buttonScopeStop : List String := defaultScopeStop ++ ["button"]

/-- elementInScope: scans the stack from the top; a tag match succeeds
before a scope stop tag fails the search. -/
def elementInScope (stop : List String) (tags : List String) : List OpenElem → Bool
  | [] => false
  | e :: rest =>
    if e.name ∈ tags then true
    else if e.name ∈ stop then false
    else elementInScope stop tags rest

def popNElems : Nat → PState → PState
  | 0, st => st
  | k + 1, st => popNElems k st.popElem

def popThroughAux : Nat → PState → List String → PState
  | 0, st, _ => st
  | fuel + 1, st, tags =>
    match st.oe with
    | [] => st
    | top :: _ =>
      let st' := st.popElem
      if top.name ∈ tags then st' else popThroughAux fuel st' tags

/-- popUntil(scope, tags): when a matching element is in scope, pops
the stack through it. -/
def PState.popUntil (st : PState) (stop : List String) (tags : List String) : PState :=
  if elementInScope stop tags st.oe then popThroughAux st.oe.length st tags else st

/-- Special elements (parse.go isSpecialElement), bounding the generic
end-tag search of the in-body mode. -/
def specialElements : List String :=
  ["address", "applet", "area", "article", "aside", "base", "basefont",
   "bgsound", "blockquote", "body", "br", "button", "caption", "center",
   "col", "colgroup", "dd", "details", "dir", "div", "dl", "dt", "embed",
   "fieldset", "figcaption", "figure", "footer", "form", "frame",
   "frameset", "h1", "h2", "h3", "h4", "h5", "h6", "head", "header",
   "hgroup", "hr", "html", "iframe", "img", "input", "keygen", "li",
   "link", "listing", "main", "marquee", "menu", "meta", "nav",
   "noembed", "noframes", "noscript", "object", "ol", "p", "param",
   "plaintext", "pre", "script", "section", "select", "source", "style",
   "summary", "table", "tbody", "td", "template", "textarea", "tfoot",
   "th", "thead", "title", "tr", "track", "ul", "wbr", "xmp"]

/-- Depth of the nearest stack entry matching the name, stopping the
search at a special element, as the in-body any-other-end-tag rule does. -/
def findMatchDepth : List OpenElem → String → Option Nat
  | [], _ => none
  | e :: rest, name =>
    if e.name == name then some 0
    else if e.name ∈ specialElements then none
    else (findMatchDepth rest name).map (· + 1)

/-- In-body handling of any other end tag: pops through the nearest
matching element unless a special element intervenes. -/
def endTagOther (st : PState) (name : String) : PState :=
  match findMatchDepth st.oe name with
  | none => st
  | some k => popNElems (k + 1) st

/-- The block start tags of the in-body mode that first close an open p
element (the address, div, p, ... group of parse.go). -/
def pClosingBlockTags : List String :=
  ["address", "article", "aside", "blockquote", "center", "details",
   "dialog", "dir", "div", "dl", "fieldset", "figcaption", "figure",
   "footer", "header", "hgroup", "main", "menu", "nav", "ol", "p",
   "section", "summary", "ul"]

/-- In-body text handling strips NUL characters. -/
def stripNull (s : String) : String :=
  String.mk (s.data.filter (fun c => c != Char.ofNat 0))

def impliedHtml (st : PState) : PState :=
  { st.pushElem "html" [] with im := .beforeHead }

def impliedHead (st : PState) : PState :=
  { st.pushElem "head" [] with im := .inHead }

def impliedHeadEnd (st : PState) : PState :=
  { st.popElem with im := .afterHead }

def impliedBody (st : PState) : PState :=
  { st.pushElem "body" [] with im := .inBody }

/-- In-head handling of start tags, also used by delegation from the
in-body and after-head modes. Returns none when the in-head rules do
not consume the tag, so that the caller falls through to its
anything-else rule. Attribute merging for a repeated html tag is not
modelled (no theorem exercises it). -/
def inHeadStartTag (st : PState) (name : String) (attrs : List Attr) :
    Option (PState × Option Token) :=
  if name == "html" then some (st, none)
  else if name ∈ ["base", "basefont", "bgsound", "link", "meta"] then
    some ((st.pushElem name attrs).popElem, none)
  else if name ∈ ["script", "title", "style", "noframes", "noscript"] then
    some ({ st.pushElem name attrs with im := .textMode, origIM := st.im }, none)
  else if name == "head" then some (st, none)
  else none

/-- One step of the tree builder: processes one token in the current
insertion mode; a returned token is to be reprocessed (Go's insertion
mode functions returning false). -/
def process1 (st : PState) (tok : Token) : PState × Option Token :=
  match st.im with
  | .initialMode =>
    match tok with
    | .text s =>
      let s' := trimLeftWS s
      if s' == "" then (st, none)
      else ({ st with im := .beforeHtml }, some (.text s'))
    | .comment c => (st.addChildNode (.mk .comment c [] .nil), none)
    | .doctype d =>
      ({ st.addChildNode (.mk .doctype d [] .nil) with im := .beforeHtml }, none)
    | _ => ({ st with im := .beforeHtml }, some tok)
  | .beforeHtml =>
    match tok with
    | .doctype _ => (st, none)
    | .text s =>
      let s' := trimLeftWS s
      if s' == "" then (st, none)
      else (impliedHtml st, some (.text s'))
    | .startTag "html" attrs _ =>
      ({ st.pushElem "html" attrs with im := .beforeHead }, none)
    | .endTag n =>
      if n ∈ ["head", "body", "html", "br"] then (impliedHtml st, some tok)
      else (st, none)
    | .comment c => (st.addChildNode (.mk .comment c [] .nil), none)
    | _ => (impliedHtml st, some tok)
  | .beforeHead =>
    match tok with
    | .text s =>
      let s' := trimLeftWS s
      if s' == "" then (st, none)
      else (impliedHead st, some (.text s'))
    | .startTag "html" _ _ => (st, none)
    | .startTag "head" attrs _ =>
      ({ st.pushElem "head" attrs with im := .inHead }, none)
    | .endTag n =>
      if n ∈ ["head", "body", "html", "br"] then (impliedHead st, some tok)
      else (st, none)
    | .comment c => (st.addChildNode (.mk .comment c [] .nil), none)
    | .doctype _ => (st, none)
    | _ => (impliedHead st, some tok)
  | .inHead =>
    match tok with
    | .text s =>
      let p := wsSplit s
      let st' := if p.1 == "" then st else st.addText p.1
      if p.2 == "" then (st', none)
      else (impliedHeadEnd st', some (.text p.2))
    | .startTag name attrs _ =>
      match inHeadStartTag st name attrs with
      | some r => r
      | none => (impliedHeadEnd st, some tok)
    | .endTag "head" => ({ st.popElem with im := .afterHead }, none)
    | .endTag n =>
      if n ∈ ["body", "html", "br"] then (impliedHeadEnd st, some tok)
      else (st, none)
    | .comment c => (st.addChildNode (.mk .comment c [] .nil), none)
    | .doctype _ => (st, none)
    | .eof => (impliedHeadEnd st, some tok)
  | .afterHead =>
    match tok with
    | .text s =>
      let p := wsSplit s
      let st' := if p.1 == "" then st else st.addText p.1
      if p.2 == "" then (st', none)
      else (impliedBody st', some (.text p.2))
    | .startTag "html" _ _ => (st, none)
    | .startTag "body" attrs _ =>
      ({ st.pushElem "body" attrs with im := .inBody }, none)
    | .startTag "frameset" attrs _ =>
      -- the in-frameset mode is not modelled (no theorem exercises it)
      ({ st.pushElem "frameset" attrs with im := .inBody }, none)
    | .startTag name _ _ =>
      if name ∈ ["base", "basefont", "bgsound", "link", "meta", "noframes",
                 "script", "style", "template", "title"] then
        -- Go re-opens the head element for these; not modelled (no
        -- theorem exercises this path)
        (st, none)
      else if name == "head" then (st, none)
      else (impliedBody st, some tok)
    | .endTag n =>
      if n ∈ ["body", "html", "br"] then (impliedBody st, some tok)
      else (st, none)
    | .comment c => (st.addChildNode (.mk .comment c [] .nil), none)
    | .doctype _ => (st, none)
    | .eof => (impliedBody st, some tok)
  | .inBody =>
    match tok with
    | .text s =>
      let s' := stripNull s
      if s' == "" then (st, none) else (st.addText s', none)
    | .startTag name attrs _ =>
      if name == "html" then (st, none)
      else if name ∈ ["base", "basefont", "bgsound", "link", "meta",
                      "noframes", "script", "style", "title", "noscript"] then
        match inHeadStartTag st name attrs with
        | some r => r
        | none => (st, none)
      else if name == "body" then (st, none)
      else if name ∈ pClosingBlockTags then
        ((st.popUntil buttonScopeStop ["p"]).pushElem name attrs, none)
      else
        -- reconstructActiveFormattingElements is a no-op here: the
        -- modelled tag set produces no active formatting elements
        (st.pushElem name attrs, none)
    | .endTag name =>
      if name == "body" then
        (if elementInScope defaultScopeStop ["body"] st.oe then
           { st with im := .afterBody }
         else st, none)
      else if name == "html" then
        if elementInScope defaultScopeStop ["body"] st.oe then
          ({ st with im := .afterBody }, some tok)
        else (st, none)
      else if name == "p" then
        let st' :=
          if elementInScope buttonScopeStop ["p"] st.oe then st
          else st.pushElem "p" []
        (st'.popUntil buttonScopeStop ["p"], none)
      else (endTagOther st name, none)
    | .comment c => (st.addChildNode (.mk .comment c [] .nil), none)
    | .doctype _ => (st, none)
    | .eof => (st, none)
  | .textMode =>
    match tok with
    | .text s => if s == "" then (st, none) else (st.addText s, none)
    | .endTag _ => ({ st.popElem with im := st.origIM }, none)
    | _ => ({ st.popElem with im := st.origIM }, some tok)
  | .afterBody =>
    match tok with
    | .eof => (st, none)
    | .text s =>
      if trimLeftWS s == "" then (st.addText s, none)
      else ({ st with im := .inBody }, some tok)
    | .startTag "html" _ _ => (st, none)
    | .endTag "html" => ({ st with im := .afterAfterBody }, none)
    | .comment _ =>
      -- Go attaches the comment to the html element; not modelled (no
      -- theorem exercises it)
      (st, none)
    | _ => ({ st with im := .inBody }, some tok)
  | .afterAfterBody =>
    match tok with
    | .eof => (st, none)
    | .comment c =>
      ({ st with docChildren := st.docChildren.append (.cons (.mk .comment c [] .nil) .nil) },
       none)
    | .text s =>
      if trimLeftWS s == "" then (st.addText s, none)
      else ({ st with im := .inBody }, some tok)
    | .startTag "html" _ _ => (st, none)
    | _ => ({ st with im := .inBody }, some tok)

/-- Runs one token to completion through reprocessing. A reprocessing
chain changes the insertion mode each step, so a small fuel bound is
never reached. -/
def processToken : Nat → PState → Token → PState
  | 0, st, _ => st
  | fuel + 1, st, tok =>
    match process1 st tok with
    | (st', none) => st'
    | (st', some tok') => processToken fuel st' tok'

def runTokens : List Token → PState → PState
  | [], st => st
  | t :: ts, st => runTokens ts (processToken 12 st t)

/-- Closes every element still open when the token stream ends. -/
def finishStack : Nat → PState → PState
  | 0, st => st
  | fuel + 1, st =>
    match st.oe with
    | [] => st
    | _ :: _ => finishStack fuel st.popElem

/-- The document produced by parsing an input string: the model of
html.Parse's result. -/
def parseDocument (input : String) : Node :=
  let st := runTokens (tokenize input) ⟨.nil, [], .initialMode, .inBody⟩
  let st' := finishStack st.oe.length st
  .mk .document "" [] st'.docChildren

/-- html.Parse reports an error only when reading from the input
reader fails; extractBody parses from a strings.Reader, which never
fails, so parsing always yields a document. -/
def htmlParse (input : String) : Option Node := some (parseDocument input)

/-- Text escaping of the renderer (escape.go escapedChars). -/
def escapeChar (c : Char) : String :=
  if c == '&' then "&amp;"
  else if c == '\'' then "&#39;"
  else if c == '<' then "&lt;"
  else if c == '>' then "&gt;"
  else if c == '"' then "&#34;"
  else if c == '\r' then "&#13;"
  else String.mk [c]

def escapeString (s : String) : String :=
  String.join (s.data.map escapeChar)

/-- Void elements (render.go voidElements): rendered without an end
tag; rendering fails if one has children. -/
def voidElements : List String :=
  ["area", "base", "br", "col", "embed", "hr", "img", "input", "keygen",
   "link", "meta", "param", "source", "track", "wbr"]

/-- Elements whose text children render unescaped (render.go). -/
def rawChildElements : List String :=
  ["iframe", "noembed", "noframes", "noscript", "plaintext", "script",
   "style", "xmp"]

def renderAttr (a : Attr) : String :=
  " " ++ a.key ++ "=\"" ++ escapeString a.val ++ "\""

mutual
/-- render.go render1: serializes one node; none models a rendering
error (html.Render returning a non-nil error). -/
def render1 : Node → Option String
  | .mk .text d _ _ => some (escapeString d)
  | .mk .comment d _ _ => some ("<!--" ++ d ++ "-->")
  | .mk .doctype d _ _ => some ("<!DOCTYPE " ++ d ++ ">")
  | .mk .document _ _ cs => renderList cs
  | .mk .element name attrs cs =>
    let opening := "<" ++ name ++ String.join (attrs.map renderAttr)
    if name ∈ voidElements then
      match cs with
      | .nil => some (opening ++ "/>")
      | .cons _ _ => none
    else if name ∈ rawChildElements then
      (renderRawList cs).map (fun body => opening ++ ">" ++ body ++ "</" ++ name ++ ">")
    else
      (renderList cs).map (fun body => opening ++ ">" ++ body ++ "</" ++ name ++ ">")

def renderList : NodeList → Option String
  | .nil => some ""
  | .cons n t =>
    match render1 n with
    | none => none
    | some s => (renderList t).map (fun r => s ++ r)

def renderRawList : NodeList → Option String
  | .nil => some ""
  | .cons n t =>
    match n with
    | .mk .text d _ _ => (renderRawList t).map (fun r => d ++ r)
    | _ =>
      match render1 n with
      | none => none
      | some s => (renderRawList t).map (fun r => s ++ r)
end

/-- Is the node a meta element? (the test of the skip in
removeMetaNodes). -/
def isMetaNode (n : Node) : Bool :=
  match n with
  | .mk .element d _ _ => d == "meta"
  | _ => false

/-- The child-filtering pass of removeMetaNodes: the loop that builds
newChildren by skipping every meta child. -/
def filterMeta : NodeList → NodeList
  | .nil => .nil
  | .cons n t => if isMetaNode n then filterMeta t else .cons n (filterMeta t)

mutual
/-- main.go removeMetaNodes: drops every meta element among the
children, relinks the remaining children in order, and recurses into
each remaining child. The Go code first builds the filtered child list
and then recurses; here the two passes are fused (the decomposition is
proved in removeMetaChildren_eq_each_filter below). -/
def removeMetaNodes : Node → Node
  | .mk t d a cs => .mk t d a (removeMetaChildren cs)

def removeMetaChildren : NodeList → NodeList
  | .nil => .nil
  | .cons n t =>
    if isMetaNode n then removeMetaChildren t
    else .cons (removeMetaNodes n) (removeMetaChildren t)
end

/-- removeMetaNodes applied to each node of a list (the recursion pass
of the Go code, taken alone). -/
def removeMetaEach : NodeList → NodeList
  | .nil => .nil
  | .cons n t => .cons (removeMetaNodes n) (removeMetaEach t)

mutual
/-- The findBody closure of extractBody: depth-first search for the
first element node named body. -/
def findBody : Node → Option Node
  | .mk t d a cs =>
    if t == NodeType.element && d == "body" then some (.mk t d a cs)
    else findBodyList cs

def findBodyList : NodeList → Option Node
  | .nil => none
  | .cons n tl =>
    match findBody n with
    | some b => some b
    | none => findBodyList tl
end

/-- main.go extractBody, with the parsing step as a parameter: parses
the input, locates the body element, strips meta nodes under it, and
serializes the body's children; on a parse failure, a missing body, or
a render failure the raw input is returned. -/
def extractBodyWith (parseFn : String → Option Node) (input : String) : String :=
  match parseFn input with
  | none => input
  | some doc =>
    match findBody doc with
    | none => input
    | some body =>
      match renderList (removeMetaNodes body).children with
      | none => input
      | some out => out

/-- main.go extractBody: the normalize function of the spec. -/
def extractBody (input : String) : String :=
  extractBodyWith htmlParse input

/-! ## The poll scheduler (monitorURL) -/

/-- Outcome of fetchURL plus the body read, as monitorURL observes it.
fetchURL builds a GET request and returns http.DefaultClient.Do(req):
a transport failure yields a non-nil error, while any completed HTTP
exchange — whatever its status code — yields a nil error together with
the status and body. readError covers a failure of ioutil.ReadAll on
the response body. -/
inductive FetchResult where
  | transportError
  | readError (status : Nat)
  | response (status : Nat) (body : String)
  deriving DecidableEq, Repr

/-- main.go shouldSendPush: the push_enabled lookup; a lookup failure
(no row, or any other query error) defaults to true. A successful scan
yields the stored integer, and the result is its non-zero test. -/
def shouldSendPush (lookup : Option Int) : Bool :=
  match lookup with
  | none => true
  | some pushInt => pushInt != 0

/-- What one fetch-compare-persist cycle did: the comparison cache
value afterwards, the content passed to saveSnapshot if it was called,
and the (url, time) arguments passed to sendPushoverNotification if it
was called. updateLastCheck, which runs before the fetch of every
cycle, is tracked separately by the run model. -/
structure CycleResult where
  lastContent : String
  written : Option String
  notified : Option (String × Int)
  deriving DecidableEq, Repr

/-- The body of monitorURL's ticker loop (one tick): fetch, read,
normalize, compare with the local cache; on a difference update the
cache, save a snapshot, and send a notification when shouldSendPush
allows it. A fetch or read error only logs and continues. The status
code of a completed response is never examined. -/
def tickCycle (url : String) (pushLookup : Option Int) (now : Int)
    (fetch : FetchResult) (lastContent : String) : CycleResult :=
  match fetch with
  | .transportError => { lastContent := lastContent, written := none, notified := none }
  | .readError _ => { lastContent := lastContent, written := none, notified := none }
  | .response _ body =>
    let currentContent := extractBody body
    if currentContent ≠ lastContent then
      { lastContent := currentContent
        written := some currentContent
        notified := if shouldSendPush pushLookup then some (url, now) else none }
    else
      { lastContent := lastContent, written := none, notified := none }

/-- The initial-snapshot step of monitorURL (before the ticker): the
same fetch-compare-persist cycle, except that no notification is ever
sent from it. -/
def initialCycle (fetch : FetchResult) (lastContent : String) : CycleResult :=
  match fetch with
  | .transportError => { lastContent := lastContent, written := none, notified := none }
  | .readError _ => { lastContent := lastContent, written := none, notified := none }
  | .response _ body =>
    let currentContent := extractBody body
    if currentContent ≠ lastContent then
      { lastContent := currentContent, written := some currentContent, notified := none }
    else
      { lastContent := lastContent, written := none, notified := none }

/-- The per-target state monitorURL maintains: the local comparison
cache lastContent and, standing for the url_snapshots rows of this
target, the list of saved snapshot contents in insertion
(timestamp) order. -/
structure MonitorState where
  lastContent : String
  snapshots : List String
  deriving DecidableEq, Repr

/-- The query of monitorURL's first line: the content of the most
recent snapshot (ORDER BY timestamp DESC LIMIT 1). -/
def latestSnapshotContent (snaps : List String) : Option String :=
  snaps.getLast?

/-- monitorURL's initialization: lastContent is scanned from the most
recent snapshot and stays the empty string when there is none
(sql.ErrNoRows leaves the variable at its zero value). When the query
fails with any other error the error is only logged and Scan leaves
the variable at its zero value as well, even if stored history exists
(queryFailed models that path). -/
def monitorInit (snaps : List String) (queryFailed : Bool) : MonitorState :=
  { lastContent := if queryFailed then "" else (latestSnapshotContent snaps).getD ""
    snapshots := snaps }

/-- saveSnapshot: inserts a row for this target (append, timestamps
being monotone within one loop). The db.Exec INSERT can fail; the Go
code then only logs the error and the row is lost (insertOk models
the outcome). -/
def saveSnapshot (snaps : List String) (content : String) (insertOk : Bool) : List String :=
  if insertOk then snaps ++ [content] else snaps

/-- Applies a cycle's effects to the per-target state. The comparison
cache is updated before saveSnapshot runs, so a failed insert leaves
the cache ahead of the store. -/
def applyCycle (st : MonitorState) (r : CycleResult) (insertOk : Bool) : MonitorState :=
  match r.written with
  | some c => { lastContent := r.lastContent, snapshots := saveSnapshot st.snapshots c insertOk }
  | none => { st with lastContent := r.lastContent }

def applyInitial (st : MonitorState) (fetch : FetchResult) (insertOk : Bool) : MonitorState :=
  applyCycle st (initialCycle fetch st.lastContent) insertOk

def applyTick (url : String) (now : Int) (st : MonitorState)
    (fetch : FetchResult) (pushLookup : Option Int) (insertOk : Bool) : MonitorState :=
  applyCycle st (tickCycle url pushLookup now fetch st.lastContent) insertOk

/-- The ticker loop of monitorURL over a finite schedule of ticks,
each tick supplying its fetch outcome, the push_enabled lookup
outcome, and whether the snapshot insert (if one happens) succeeds. -/
def runTicks (url : String) (now : Int) :
    MonitorState → List (FetchResult × Option Int × Bool) → MonitorState
  | st, [] => st
  | st, (f, p, ok) :: rest => runTicks url now (applyTick url now st f p ok) rest

/-- A full run of monitorURL for one target: initialize from the
stored snapshots (the query possibly failing), take the initial
snapshot, then run the ticker. -/
def monitorRun (snaps : List String) (queryFailed : Bool) (firstFetch : FetchResult)
    (firstInsertOk : Bool) (ticks : List (FetchResult × Option Int × Bool))
    (url : String) (now : Int) : MonitorState :=
  runTicks url now (applyInitial (monitorInit snaps queryFailed) firstFetch firstInsertOk) ticks

/-- The catch-up computation at the top of monitorURL, over an integer
timeline. The last_check lookup either finds a row (found), finds
none (sql.ErrNoRows), or fails otherwise — in which case the Go code
proceeds with the zero time value, modelled as instant 0. The result
is the duration passed to time.Sleep (0 when no sleep happens). -/
inductive LastCheckLookup where
  | found (lastCheck : Int)
  | noRows
  | otherError
  deriving DecidableEq, Repr

def catchUpWait (lookup : LastCheckLookup) (now frequency : Int) : Int :=
  match lookup with
  | .noRows => 0
  | .found t => if now - t < frequency then frequency - (now - t) else 0
  | .otherError => if now - 0 < frequency then frequency - (now - 0) else 0

/-! ## Storage rows and the delete handler -/

/-- A row of monitored_urls. -/
structure MonitoredURLRow where
  id : Nat
  url : String
  frequency : Int
  pushEnabled : Int
  deriving DecidableEq, Repr

/-- A row of url_snapshots. -/
structure SnapshotRow where
  id : Nat
  urlId : Nat
  timestamp : Int
  content : String
  deriving DecidableEq, Repr

/-- A row of url_last_check. -/
structure LastCheckRow where
  urlId : Nat
  lastCheck : Int
  deriving DecidableEq, Repr

/-- The three tables created by setupDatabase. -/
structure Database where
  monitoredUrls : List MonitoredURLRow
  urlSnapshots : List SnapshotRow
  urlLastCheck : List LastCheckRow
  deriving DecidableEq, Repr

/-- The push_enabled query of shouldSendPush against the table: a
missing row is a failed lookup. -/
def queryPushEnabled (rows : List MonitoredURLRow) (urlId : Nat) : Option Int :=
  (rows.find? (fun r => r.id == urlId)).map (fun r => r.pushEnabled)

/-- deleteURLHandler's database effect: DELETE FROM monitored_urls
WHERE id = ?, then DELETE FROM url_snapshots WHERE url_id = ?. No
statement touches url_last_check. -/
def deleteURLHandler (db : Database) (urlId : Nat) : Database :=
  { monitoredUrls := db.monitoredUrls.filter (fun r => r.id != urlId)
    urlSnapshots := db.urlSnapshots.filter (fun s => s.urlId != urlId)
    urlLastCheck := db.urlLastCheck }

/-! ## Predicates used by the theorems -/

mutual
/-- No meta element occurs in this node or anywhere below it. -/
def metaFreeNode : Node → Bool
  | .mk t d a cs => !isMetaNode (.mk t d a cs) && metaFreeList cs

/-- No meta element occurs in this list or anywhere below it. -/
def metaFreeList : NodeList → Bool
  | .nil => true
  | .cons n t => metaFreeNode n && metaFreeList t
end

/-- The local comparison cache agrees with the most recent stored
snapshot (vacuously when no snapshot exists yet). -/
def cacheConsistent (st : MonitorState) : Prop :=
  ∀ c, st.snapshots.getLast? = some c → c = st.lastContent

/-! ## Theorems about the content normalizer -/

/-- Whether a node is a meta element depends only on its kind and
name, not on its attributes or children. -/
theorem isMetaNode_mk (t : NodeType) (d : String) (a a' : List Attr)
    (cs cs' : NodeList) : isMetaNode (.mk t d a cs) = isMetaNode (.mk t d a' cs') := by
  cases t <;> rfl

mutual
theorem metaFreeNode_removeMetaNodes :
    ∀ n : Node, isMetaNode n = false → metaFreeNode (removeMetaNodes n) = true
  | .mk t d a cs, h => by
    rw [removeMetaNodes, metaFreeNode, isMetaNode_mk t d a a (removeMetaChildren cs) cs, h,
      metaFreeList_removeMetaChildren cs]
    rfl

theorem metaFreeList_removeMetaChildren :
    ∀ cs : NodeList, metaFreeList (removeMetaChildren cs) = true
  | .nil => rfl
  | .cons n t => by
    by_cases hn : isMetaNode n = true
    · rw [removeMetaChildren, if_pos hn]
      exact metaFreeList_removeMetaChildren t
    · rw [removeMetaChildren, if_neg hn, metaFreeList,
        metaFreeNode_removeMetaNodes n (Bool.eq_false_iff.mpr hn),
        metaFreeList_removeMetaChildren t]
      rfl
end

/-- The fused removal pass equals the Go code's two passes: first
filter out the meta children (preserving the order of the remaining
siblings), then recurse into each remaining child. -/
theorem removeMetaChildren_eq_each_filter :
    ∀ cs : NodeList, removeMetaChildren cs = removeMetaEach (filterMeta cs)
  | .nil => rfl
  | .cons n t => by
    by_cases hn : isMetaNode n = true
    · rw [removeMetaChildren, if_pos hn, filterMeta, if_pos hn]
      exact removeMetaChildren_eq_each_filter t
    · rw [removeMetaChildren, if_neg hn, filterMeta, if_neg hn, removeMetaEach,
        removeMetaChildren_eq_each_filter t]

/-- C8: normalize removes meta elements recursively through all
descendants of the body container while preserving the sibling order
of the remaining nodes; in particular the scenario document of the
spec normalizes to the body content with both meta occurrences removed
and the p element preserved. -/
theorem extractBody_meta_removal :
    extractBody "<html><head><meta charset=x></head><body><p>Hi</p><meta x=1></body></html>"
      = "<p>Hi</p>"
    ∧ (∀ cs : NodeList, metaFreeList (removeMetaChildren cs) = true)
    ∧ (∀ cs : NodeList, removeMetaChildren cs = removeMetaEach (filterMeta cs)) :=
  ⟨by decide, metaFreeList_removeMetaChildren, removeMetaChildren_eq_each_filter⟩

/-- C3 (counterexample): normalize is not the identity on every
non-document byte input. The HTML5 parser accepts any input, so the
fail-open branch is not taken; on the plain-text input consisting of a
space followed by the letter a, the leading whitespace is consumed by
the initial insertion modes and the result differs from the input. -/
theorem extractBody_changes_plain_text :
    extractBody " a" ≠ " a" ∧ extractBody " a" = "a" := by
  constructor
  · decide
  · decide

/-- C3 (amended): extractBody returns the raw input unchanged whenever
the parsing step fails or the parsed document contains no body
element. The parser used (html.Parse reading from a string) never
fails, so the parse-failure branch is unreachable in the program, but
the missing-body branch is reachable: a frameset document produces no
body element and is returned unchanged. For other inputs the parser
supplies an implied body, so normalize(x) = x does not hold for all
non-document inputs (see the counterexample). -/
theorem extractBody_fail_open (parseFn : String → Option Node) (input : String) :
    (parseFn input = none → extractBodyWith parseFn input = input)
    ∧ (∀ doc, parseFn input = some doc → findBody doc = none →
        extractBodyWith parseFn input = input)
    ∧ (∀ s : String, htmlParse s ≠ none)
    ∧ findBody (parseDocument "<frameset></frameset>") = none
    ∧ extractBody "<frameset></frameset>" = "<frameset></frameset>" := by
  refine ⟨fun h => ?_, fun doc hdoc hbody => ?_, fun s => ?_, ?_, ?_⟩
  · rw [extractBodyWith, h]
  · simp only [extractBodyWith, hdoc, hbody]
  · rw [htmlParse]
    exact Option.some_ne_none _
  · rfl
  · rfl

/-- Witness for extractBody_fail_open at a concrete failing parser and
at a concrete parser yielding a document with no body element. -/
theorem extractBody_fail_open_witness :
    ((fun _ : String => (none : Option Node)) "z" = none)
    ∧ extractBodyWith (fun _ : String => (none : Option Node)) "z" = "z"
    ∧ ((fun _ : String => some (Node.mk .text "z" [] .nil)) "z"
        = some (Node.mk .text "z" [] .nil))
    ∧ findBody (Node.mk .text "z" [] .nil) = none
    ∧ extractBodyWith (fun _ : String => some (Node.mk .text "z" [] .nil)) "z" = "z" :=
  ⟨rfl,
   (extractBody_fail_open (fun _ => none) "z").1 rfl,
   rfl,
   rfl,
   (extractBody_fail_open (fun _ => some (Node.mk .text "z" [] .nil)) "z").2.1
     (Node.mk .text "z" [] .nil) rfl rfl⟩

/-- C7 (counterexample): normalize is not idempotent. A title element
inside body survives the first normalization (the in-body mode keeps
it in place), but on re-parsing the normalized output the title is
placed into the head, so a second normalization drops it. -/
theorem extractBody_not_idempotent :
    extractBody (extractBody "<body><title>T</title>x</body>")
      ≠ extractBody "<body><title>T</title>x</body>" := by
  decide

/-- C7 (amended): already-normalized ordinary body content is a fixed
point of normalize — re-normalizing the normal form of the spec's
scenario document yields it unchanged — but normalize is not
idempotent on all inputs. -/
theorem extractBody_fixed_point_normalized :
    extractBody (extractBody
        "<html><head><meta charset=x></head><body><p>Hi</p><meta x=1></body></html>")
      = extractBody
        "<html><head><meta charset=x></head><body><p>Hi</p><meta x=1></body></html>" := by
  decide

/-! ## Theorems about the poll scheduler -/

/-- C1 (counterexample): a completed HTTP exchange with a non-2xx
status is not aborted. fetchURL returns the response of
http.DefaultClient.Do with a nil error for any completed exchange, and
monitorURL never inspects the status code, so a 404 whose body differs
from the cache writes a snapshot and sends a notification. -/
theorem non2xx_tick_still_writes :
    (tickCycle "u" (some 1) 7 (.response 404 "x") "").written = some "x"
    ∧ (tickCycle "u" (some 1) 7 (.response 404 "x") "").notified = some ("u", 7) := by
  constructor
  · decide
  · decide

/-- C1 (amended): a transport error of the GET or a failure reading
the response body aborts the cycle without writing a snapshot, without
touching the comparison cache and without invoking the notifier, and
the loop proceeds to the next tick unchanged — such errors are never
fatal to the loop. Non-2xx responses, however, are not detected: the
status code is never examined and their bodies are processed as
content. -/
theorem fetch_error_tick_is_noop :
    (∀ (url : String) (p : Option Int) (now : Int) (last : String),
      tickCycle url p now .transportError last =
        { lastContent := last, written := none, notified := none })
    ∧ (∀ (url : String) (p : Option Int) (now : Int) (last : String) (status : Nat),
      tickCycle url p now (.readError status) last =
        { lastContent := last, written := none, notified := none })
    ∧ (∀ (url : String) (now : Int) (st : MonitorState) (p : Option Int) (ok : Bool)
        (rest : List (FetchResult × Option Int × Bool)),
      runTicks url now st ((.transportError, p, ok) :: rest) = runTicks url now st rest) :=
  ⟨fun _ _ _ _ => rfl, fun _ _ _ _ _ => rfl, fun _ _ _ _ _ _ => rfl⟩

/-- C2 (counterexample): with no prior snapshot the comparison cache
starts at the empty string, so when the first successful fetch
normalizes to the empty string the initial cycle writes no baseline
snapshot. -/
theorem empty_first_fetch_writes_nothing :
    (applyInitial (monitorInit [] false) (.response 200 "") true).snapshots = []
    ∧ (initialCycle (.response 200 "") (monitorInit [] false).lastContent).written = none := by
  constructor
  · decide
  · decide

/-- C2 (amended): for a target with no prior snapshot, the immediate
cycle at loop start writes a first baseline snapshot whenever the
fetch succeeds and the content normalizes to a non-empty string;
content normalizing to the empty string equals the empty baseline and
writes nothing. -/
theorem first_fetch_nonempty_writes_baseline (status : Nat) (body : String)
    (h : extractBody body ≠ "") :
    (applyInitial (monitorInit [] false) (.response status body) true).snapshots
      = [extractBody body] := by
  simp [applyInitial, monitorInit, latestSnapshotContent, initialCycle, applyCycle, h,
    saveSnapshot]

theorem first_fetch_nonempty_writes_baseline_witness :
    extractBody "hi" ≠ ""
    ∧ (applyInitial (monitorInit [] false) (.response 200 "hi") true).snapshots
        = [extractBody "hi"] :=
  ⟨by decide, first_fetch_nonempty_writes_baseline 200 "hi" (by decide)⟩

/-- C4 (counterexample): the immediate cycle at loop start never
invokes the notifier, even when the normalized content differs from
the last known content (here a fresh target with content x: a snapshot
is written but no notification is sent, regardless of the target's
notification setting, which this cycle does not even look up). -/
theorem initial_cycle_change_not_notified :
    (initialCycle (.response 200 "x") "").written = some "x"
    ∧ (initialCycle (.response 200 "x") "").notified = none := by
  constructor
  · decide
  · decide

/-- C4 (amended): in every ticker cycle, if the normalized content
differs from the last known content and the push lookup yields a
non-zero setting, the notifier is invoked with the target's url and
the timestamp, and a snapshot of the new content is written; if the
content is identical, nothing is written and the notifier is not
invoked. The immediate cycle at loop start writes on a difference but
never notifies. -/
theorem ticker_notification_semantics :
    (∀ (url : String) (v : Int) (now : Int) (status : Nat) (body last : String),
      extractBody body ≠ last → v ≠ 0 →
      (tickCycle url (some v) now (.response status body) last).notified = some (url, now)
      ∧ (tickCycle url (some v) now (.response status body) last).written
          = some (extractBody body))
    ∧ (∀ (url : String) (p : Option Int) (now : Int) (status : Nat) (body last : String),
      extractBody body = last →
      tickCycle url p now (.response status body) last =
        { lastContent := last, written := none, notified := none })
    ∧ (∀ (fetch : FetchResult) (last : String), (initialCycle fetch last).notified = none) := by
  refine ⟨fun url v now status body last hne hv => ?_, fun url p now status body last he => ?_,
    fun fetch last => ?_⟩
  · have : shouldSendPush (some v) = true := by
      simp [shouldSendPush, bne_iff_ne, hv]
    simp [tickCycle, hne, this]
  · simp [tickCycle, he]
  · cases fetch with
    | transportError => rfl
    | readError status => rfl
    | response status body =>
      rw [initialCycle]
      split <;> rfl

theorem ticker_notification_semantics_witness :
    extractBody "B" ≠ "A" ∧ (1 : Int) ≠ 0
    ∧ (tickCycle "u" (some 1) 5 (.response 200 "B") "A").notified = some ("u", 5) :=
  ⟨by decide, by decide,
   (ticker_notification_semantics.1 "u" 1 5 200 "B" "A" (by decide) (by decide)).1⟩

/-- One cycle application whose insert succeeds preserves adjacent
distinctness of the snapshot history together with cache consistency,
provided the cycle result writes only content that differs from the
cache (which both initialCycle and tickCycle guarantee). -/
theorem applyCycle_inv (st : MonitorState) (r : CycleResult)
    (hw : ∀ c, r.written = some c → c = r.lastContent ∧ c ≠ st.lastContent)
    (hn : r.written = none → r.lastContent = st.lastContent)
    (h1 : List.Chain' (· ≠ ·) st.snapshots) (h2 : cacheConsistent st) :
    List.Chain' (· ≠ ·) (applyCycle st r true).snapshots
    ∧ cacheConsistent (applyCycle st r true) := by
  cases hr : r.written with
  | none =>
    simp only [applyCycle, hr]
    refine ⟨h1, fun c hc => ?_⟩
    rw [hn hr]
    exact h2 c hc
  | some c =>
    obtain ⟨hcl, hcne⟩ := hw c hr
    simp only [applyCycle, hr, saveSnapshot, if_pos]
    constructor
    · rw [List.chain'_append]
      refine ⟨h1, List.chain'_singleton c, fun x hx y hy => ?_⟩
      rw [List.head?_cons, Option.mem_some_iff] at hy
      rw [Option.mem_def] at hx
      have := h2 x hx
      rw [this, ← hy]
      exact fun hxy => hcne hxy.symm
    · intro c' hc'
      rw [List.getLast?_concat] at hc'
      rw [← Option.some_inj.mp hc']
      exact hcl

theorem initialCycle_written (fetch : FetchResult) (last : String) :
    (∀ c, (initialCycle fetch last).written = some c →
      c = (initialCycle fetch last).lastContent ∧ c ≠ last)
    ∧ ((initialCycle fetch last).written = none →
      (initialCycle fetch last).lastContent = last) := by
  cases fetch with
  | transportError => exact ⟨fun c hc => by simp [initialCycle] at hc, fun _ => rfl⟩
  | readError status => exact ⟨fun c hc => by simp [initialCycle] at hc, fun _ => rfl⟩
  | response status body =>
    rw [initialCycle]
    split
    · next hne =>
      exact ⟨fun c hc => by
        simp only [Option.some_inj] at hc
        exact ⟨hc ▸ rfl, hc ▸ hne⟩,
        fun h => by simp at h⟩
    · next hne => exact ⟨fun c hc => by simp at hc, fun _ => rfl⟩

theorem tickCycle_written (url : String) (p : Option Int) (now : Int)
    (fetch : FetchResult) (last : String) :
    (∀ c, (tickCycle url p now fetch last).written = some c →
      c = (tickCycle url p now fetch last).lastContent ∧ c ≠ last)
    ∧ ((tickCycle url p now fetch last).written = none →
      (tickCycle url p now fetch last).lastContent = last) := by
  cases fetch with
  | transportError => exact ⟨fun c hc => by simp [tickCycle] at hc, fun _ => rfl⟩
  | readError status => exact ⟨fun c hc => by simp [tickCycle] at hc, fun _ => rfl⟩
  | response status body =>
    rw [tickCycle]
    split
    · next hne =>
      exact ⟨fun c hc => by
        simp only [Option.some_inj] at hc
        exact ⟨hc ▸ rfl, hc ▸ hne⟩,
        fun h => by simp at h⟩
    · next hne => exact ⟨fun c hc => by simp at hc, fun _ => rfl⟩

theorem runTicks_inv (url : String) (now : Int) :
    ∀ (ticks : List (FetchResult × Option Int × Bool)) (st : MonitorState),
      (∀ e ∈ ticks, e.2.2 = true) →
      List.Chain' (· ≠ ·) st.snapshots → cacheConsistent st →
      List.Chain' (· ≠ ·) (runTicks url now st ticks).snapshots
      ∧ cacheConsistent (runTicks url now st ticks)
  | [], st, _, h1, h2 => ⟨h1, h2⟩
  | (f, p, ok) :: rest, st, hok, h1, h2 => by
    rw [runTicks]
    have hhd : ok = true := hok (f, p, ok) (List.mem_cons_self _ _)
    subst hhd
    have step := applyCycle_inv st (tickCycle url p now f st.lastContent)
      (tickCycle_written url p now f st.lastContent).1
      (tickCycle_written url p now f st.lastContent).2 h1 h2
    exact runTicks_inv url now rest _ (fun e he => hok e (List.mem_cons_of_mem _ he))
      step.1 step.2

/-- C5 (counterexample): when a snapshot insert fails, the program can
violate the consecutive-distinct invariant. saveSnapshot only logs a
db.Exec failure and the cache was already advanced, so with stored
history ending in A, a fetch of B whose insert fails followed by a
successful fetch of A stores A twice in a row. -/
theorem failed_insert_breaks_consecutive_distinct :
    (monitorRun ["A"] false (.response 200 "B") false
        [(.response 200 "A", some 1, true)] "u" 0).snapshots = ["A", "A"]
    ∧ ¬ List.Chain' (· ≠ ·) (["A", "A"] : List String) :=
  ⟨by decide, fun h => (List.chain'_cons.mp h).1 rfl⟩

/-- C5 (amended): within a run of a target's monitoring loop in which
the loop-start snapshot query does not fail and every snapshot insert
succeeds, no two consecutive snapshots have identical content — a
snapshot is written only when the newly normalized content differs
from the content of the immediately preceding snapshot — given that
the pre-existing history already satisfies the invariant (the cache is
initialized from the most recent stored snapshot, so the boundary
between old history and new writes also satisfies it). When an insert
or the initial query fails (both merely logged), the cache
desynchronizes from the store and the invariant can be violated. -/
theorem snapshots_consecutive_distinct (snaps : List String) (firstFetch : FetchResult)
    (ticks : List (FetchResult × Option Int × Bool)) (url : String) (now : Int)
    (h : List.Chain' (· ≠ ·) snaps) (hok : ∀ e ∈ ticks, e.2.2 = true) :
    List.Chain' (· ≠ ·)
      (monitorRun snaps false firstFetch true ticks url now).snapshots := by
  rw [monitorRun]
  have hinit : cacheConsistent (monitorInit snaps false) := by
    intro c hc
    simp only [monitorInit] at hc ⊢
    rw [latestSnapshotContent, hc]
    rfl
  have hstep := applyCycle_inv (monitorInit snaps false)
    (initialCycle firstFetch (monitorInit snaps false).lastContent)
    (initialCycle_written firstFetch (monitorInit snaps false).lastContent).1
    (initialCycle_written firstFetch (monitorInit snaps false).lastContent).2 h hinit
  exact (runTicks_inv url now ticks _ hok hstep.1 hstep.2).1

theorem snapshots_consecutive_distinct_witness :
    List.Chain' (· ≠ ·) (["A"] : List String)
    ∧ (∀ e ∈ ([(.response 200 "A", some 1, true), (.response 200 "B", some 1, true)] :
        List (FetchResult × Option Int × Bool)), e.2.2 = true)
    ∧ List.Chain' (· ≠ ·)
        (monitorRun ["A"] false (.response 200 "A") true
          [(.response 200 "A", some 1, true), (.response 200 "B", some 1, true)]
          "u" 0).snapshots :=
  ⟨List.chain'_singleton "A",
   by decide,
   snapshots_consecutive_distinct ["A"] (.response 200 "A")
     [(.response 200 "A", some 1, true), (.response 200 "B", some 1, true)] "u" 0
     (List.chain'_singleton "A") (by decide)⟩

/-- C6: when a last-check row exists and less than the interval has
elapsed, the scheduler sleeps exactly the remaining delta; when the
full interval has elapsed, or no row exists, it does not wait. In
particular, with an interval of 60 and a mark 10 old, it waits exactly
50. -/
theorem catchup_wait_semantics (t now freq : Int) :
    (now - t < freq → catchUpWait (.found t) now freq = freq - (now - t))
    ∧ (freq ≤ now - t → catchUpWait (.found t) now freq = 0)
    ∧ catchUpWait .noRows now freq = 0
    ∧ catchUpWait (.found (now - 10)) now 60 = 50 := by
  refine ⟨fun h => ?_, fun h => ?_, rfl, ?_⟩
  · rw [catchUpWait, if_pos h]
  · rw [catchUpWait, if_neg (not_lt.mpr h)]
  · rw [catchUpWait, if_pos (by omega)]
    omega

theorem catchup_wait_semantics_witness :
    ((10 : Int) - 0 < 60) ∧ catchUpWait (.found 0) 10 60 = 50 :=
  ⟨by decide, ((catchup_wait_semantics 0 10 60).1 (by decide)).trans (by decide)⟩

/-! ## Theorems about the storage handlers -/

/-- C9: the push-enabled lookup returns the stored value's non-zero
test when the lookup succeeds (in particular the stored value of the
target's row when the row is found) and defaults to true whenever the
lookup fails. -/
theorem shouldSendPush_semantics (rows : List MonitoredURLRow) (urlId : Nat) :
    (queryPushEnabled rows urlId = none →
      shouldSendPush (queryPushEnabled rows urlId) = true)
    ∧ (∀ v : Int, queryPushEnabled rows urlId = some v →
      shouldSendPush (queryPushEnabled rows urlId) = (v != 0))
    ∧ (∀ r : MonitoredURLRow, rows.find? (fun r' => r'.id == urlId) = some r →
      shouldSendPush (queryPushEnabled rows urlId) = (r.pushEnabled != 0)) := by
  refine ⟨fun h => ?_, fun v hv => ?_, fun r hr => ?_⟩
  · rw [h]
    rfl
  · rw [hv]
    rfl
  · rw [queryPushEnabled, hr]
    rfl

theorem shouldSendPush_semantics_witness :
    queryPushEnabled [] 3 = none ∧ shouldSendPush (queryPushEnabled [] 3) = true :=
  ⟨rfl, (shouldSendPush_semantics [] 3).1 rfl⟩

/-- C10: deleting a monitored target removes its row from
monitored_urls and all of its url_snapshots rows (and only those),
while the url_last_check table is left entirely unchanged. -/
theorem deleteURLHandler_frame (db : Database) (urlId : Nat) :
    (deleteURLHandler db urlId).urlLastCheck = db.urlLastCheck
    ∧ (∀ r : MonitoredURLRow,
        r ∈ (deleteURLHandler db urlId).monitoredUrls ↔
          r ∈ db.monitoredUrls ∧ r.id ≠ urlId)
    ∧ (∀ s : SnapshotRow,
        s ∈ (deleteURLHandler db urlId).urlSnapshots ↔
          s ∈ db.urlSnapshots ∧ s.urlId ≠ urlId) := by
  refine ⟨rfl, fun r => ?_, fun s => ?_⟩
  · rw [deleteURLHandler]
    simp [List.mem_filter]
  · rw [deleteURLHandler]
    simp [List.mem_filter]

end Watchurl
